import Mathlib

/-!
Shallow embedding of the Olist data-preparation pipeline
(`src/data_processing.py`, function `load_and_prepare_data`) and proofs of
the spec's claims about it.

Modelling conventions:
* a raw CSV date cell is a `DateVal` (missing, malformed, or a valid
  timestamp in seconds since the epoch); `to_datetime` with errors="coerce"
  sends missing and malformed cells to `none`;
* pandas timestamps and timedeltas are `Int` seconds; `Timedelta.days`
  (the `.dt.days` accessor) is floor division by 86400, which is what the
  pandas days component computes;
* monetary columns (`price`, `freight_value`) are amounts in centavos
  (`Int`), so the pipeline's sums are exact; `review_score` is the integer
  1-5 of the dataset;
* a pandas inner merge preserves the order of the left rows and, per left
  row, the order of the matching right rows: `innerMerge` below;
* `groupby(k).agg(...)` with the default `sort=True` emits one output row
  per distinct key, keys in ascending codepoint-lexicographic order
  (Python string comparison), each group keeping the row order of the
  merged frame ("first" = head of the group); the key sort is embedded as
  an insertion sort over the executable comparison `strLeB`, proved below
  to agree with the standard `String` order;
* `pd.read_csv` either returns rows or raises a Python exception; the
  `try/except FileNotFoundError` of the source is modelled by `readAll`
  plus the match in `load_and_prepare_data`.
-/

namespace Olist

/-- A raw date cell of the orders CSV: absent, a malformed string, or a
string parsing to a timestamp (`t` in seconds since the epoch). -/
inductive DateVal where
  | missing : DateVal
  | malformed : DateVal
  | valid (t : Int) : DateVal
deriving DecidableEq, Repr

/-- `pd.to_datetime(col, errors="coerce")` on one cell: malformed and
missing cells become null (`none`), valid strings parse. -/
def to_datetime : DateVal → Option Int
  | .missing => none
  | .malformed => none
  | .valid t => some t

/-- A row of `olist_orders_dataset.csv` as read from disk. -/
structure OrderRaw where
  order_id : String
  customer_id : String
  order_purchase_timestamp : DateVal
  order_approved_at : DateVal
  order_delivered_carrier_date : DateVal
  order_delivered_customer_date : DateVal
  order_estimated_delivery_date : DateVal
deriving DecidableEq, Repr

/-- An orders row after the five date columns went through `to_datetime`. -/
structure OrderParsed where
  order_id : String
  customer_id : String
  order_purchase_timestamp : Option Int
  order_approved_at : Option Int
  order_delivered_carrier_date : Option Int
  order_delivered_customer_date : Option Int
  order_estimated_delivery_date : Option Int
deriving DecidableEq, Repr

/-- The date-conversion loop over `date_cols` applied to one row. -/
def parseDates (o : OrderRaw) : OrderParsed where
  order_id := o.order_id
  customer_id := o.customer_id
  order_purchase_timestamp := to_datetime o.order_purchase_timestamp
  order_approved_at := to_datetime o.order_approved_at
  order_delivered_carrier_date := to_datetime o.order_delivered_carrier_date
  order_delivered_customer_date := to_datetime o.order_delivered_customer_date
  order_estimated_delivery_date := to_datetime o.order_estimated_delivery_date

/-- Steps 2 of the source on the orders table: convert the date columns,
then `dropna(subset=["order_delivered_customer_date",
"order_estimated_delivery_date"])`. -/
def cleanOrders (orders : List OrderRaw) : List OrderParsed :=
  (orders.map parseDates).filter fun o =>
    o.order_delivered_customer_date.isSome && o.order_estimated_delivery_date.isSome

/-- `Timedelta.days` for a timedelta of `t` seconds: the days component of a
pandas timedelta is the floor of the duration in days (sub-day parts are
kept nonnegative), i.e. floor division by 86400. -/
def timedeltaDays (t : Int) : Int := Int.fdiv t 86400

/-- The "Delivery Timeliness" column of one orders row:
`(order_estimated_delivery_date - order_delivered_customer_date).dt.days`.
A null in either column gives NaT - hence a null (`none`) result. -/
def deliveryDiffDays (est del : Option Int) : Option Int :=
  match est, del with
  | some e, some d => some (timedeltaDays (e - d))
  | _, _ => none

/-- The `lambda x: "Late" if x < 0 else "On-Time/Early"` applied to a
"Delivery Timeliness" cell (on NaN the comparison is false, giving
"On-Time/Early"; after the dropna the cell is never null anyway). -/
def lateLabel (x : Option Int) : String :=
  match x with
  | some t => if t < 0 then "Late" else "On-Time/Early"
  | none => "On-Time/Early"

/-- An orders row after step 3 of the source added the two derived
columns. -/
structure OrderFeat where
  order_id : String
  customer_id : String
  order_purchase_timestamp : Option Int
  order_approved_at : Option Int
  order_delivered_carrier_date : Option Int
  order_delivered_customer_date : Option Int
  order_estimated_delivery_date : Option Int
  deliveryTimeliness : Option Int
  deliveryStatus : String
deriving DecidableEq, Repr

/-- Step 3 (feature engineering) on one surviving orders row. -/
def deriveOrder (o : OrderParsed) : OrderFeat where
  order_id := o.order_id
  customer_id := o.customer_id
  order_purchase_timestamp := o.order_purchase_timestamp
  order_approved_at := o.order_approved_at
  order_delivered_carrier_date := o.order_delivered_carrier_date
  order_delivered_customer_date := o.order_delivered_customer_date
  order_estimated_delivery_date := o.order_estimated_delivery_date
  deliveryTimeliness :=
    deliveryDiffDays o.order_estimated_delivery_date o.order_delivered_customer_date
  deliveryStatus :=
    lateLabel (deliveryDiffDays o.order_estimated_delivery_date o.order_delivered_customer_date)

/-- The orders table as it enters the merges: cleaned then feature-derived. -/
def featOrders (orders : List OrderRaw) : List OrderFeat :=
  (cleanOrders orders).map deriveOrder

/-- A row of `olist_order_reviews_dataset.csv` (an order can have several
review rows). -/
structure ReviewRow where
  review_id : String
  order_id : String
  review_score : Int
deriving DecidableEq, Repr

/-- A row of `olist_order_items_dataset.csv`. -/
structure ItemRow where
  order_id : String
  order_item_id : Nat
  product_id : String
  price : Int
  freight_value : Int
deriving DecidableEq, Repr

/-- A row of `olist_products_dataset.csv`. -/
structure ProductRow where
  product_id : String
  product_category_name : Option String
deriving DecidableEq, Repr

/-- A row of `olist_customers_dataset.csv`. -/
structure CustomerRow where
  customer_id : String
  customer_state : Option String
deriving DecidableEq, Repr

/-- The five loaded tables. -/
structure Dataset where
  orders : List OrderRaw
  reviews : List ReviewRow
  items : List ItemRow
  products : List ProductRow
  customers : List CustomerRow
deriving DecidableEq, Repr

/-- `products.dropna(subset=["product_category_name"])`. -/
def cleanProducts (products : List ProductRow) : List ProductRow :=
  products.filter fun p => p.product_category_name.isSome

/-- `pd.merge(l, r, on=key)` with the default inner join: each left row in
order, paired with every right row whose key matches, in right order. -/
def innerMerge {α β : Type} (ka : α → String) (kb : β → String)
    (l : List α) (r : List β) : List (α × β) :=
  l.flatMap fun a => (r.filter fun b => kb b == ka a).map fun b => (a, b)

/-- A row of `master_df` after the four merges: the orders row with its
matched review, item, product and customer rows. -/
abbrev MRow := (((OrderFeat × ReviewRow) × ItemRow) × ProductRow) × CustomerRow

/-- Step 4 of the source: the four inner merges, in source order. -/
def masterRows (d : Dataset) : List MRow :=
  let m1 := innerMerge OrderFeat.order_id ReviewRow.order_id (featOrders d.orders) d.reviews
  let m2 := innerMerge (fun x => x.1.order_id) ItemRow.order_id m1 d.items
  let m3 := innerMerge (fun x => x.2.product_id) ProductRow.product_id m2
    (cleanProducts d.products)
  innerMerge (fun x => x.1.1.1.customer_id) CustomerRow.customer_id m3 d.customers

/-- The `order_id` column of a merged row (it comes from the orders side). -/
def MRow.order_id (x : MRow) : String := x.1.1.1.1.order_id

/-- The `price` column of a merged row (from the items side). -/
def MRow.price (x : MRow) : Int := x.1.1.2.price

/-- The `freight_value` column of a merged row (from the items side). -/
def MRow.freight_value (x : MRow) : Int := x.1.1.2.freight_value

/-- One row of the final table: a Prepared Order Record (after the
`review_score` -> "Review Score" rename). -/
structure FinalRow where
  order_id : String
  order_purchase_timestamp : Option Int
  reviewScore : Int
  deliveryTimeliness : Option Int
  deliveryStatus : String
  price : Int
  freight_value : Int
  product_category_name : Option String
  customer_state : Option String
deriving DecidableEq, Repr

/-- Python string comparison `as <= bs` on the underlying code points,
executable: the lexicographic less-or-equal on `List Char`. -/
def charListLe : List Char → List Char → Bool
  | [], _ => true
  | _ :: _, [] => false
  | a :: as, b :: bs => if a < b then true else if a = b then charListLe as bs else false

/-- Python string comparison `a <= b` on two strings. -/
def strLeB (a b : String) : Bool := charListLe a.data b.data

/-- Insert a key into a list that is ascending under `strLeB`. -/
def insertKey (x : String) : List String → List String
  | [] => [x]
  | y :: ys => if strLeB x y then x :: y :: ys else y :: insertKey x ys

/-- Ascending insertion sort of the group keys: the order in which
`groupby` (with its default `sort=True`) emits the distinct keys. -/
def sortKeys : List String → List String
  | [] => []
  | x :: xs => insertKey x (sortKeys xs)

/-- `agg_funcs` applied to one nonempty group: "first" takes the head row
of the group, `price` and `freight_value` are summed over the group. -/
def aggGroup (k : String) (g : List MRow) : Option FinalRow :=
  match g with
  | [] => none
  | r :: rs => some
      { order_id := k
        order_purchase_timestamp := r.1.1.1.1.order_purchase_timestamp
        reviewScore := r.1.1.1.2.review_score
        deliveryTimeliness := r.1.1.1.1.deliveryTimeliness
        deliveryStatus := r.1.1.1.1.deliveryStatus
        price := ((r :: rs).map MRow.price).sum
        freight_value := ((r :: rs).map MRow.freight_value).sum
        product_category_name := r.1.2.product_category_name
        customer_state := r.2.customer_state }

/-- Step 5 of the source:
`master_df.groupby("order_id").agg(agg_funcs).reset_index()` (groupby with
the default `sort=True`: one output row per distinct `order_id`, keys in
ascending order, each group in `master_df` row order), followed by the
column rename of step 6. -/
def finalTable (d : Dataset) : List FinalRow :=
  let m := masterRows d
  let keys := sortKeys (m.map MRow.order_id).dedup
  keys.filterMap fun k => aggGroup k (m.filter fun r => MRow.order_id r == k)

/-- A Python exception raised while reading one CSV. -/
inductive PyExc where
  | fileNotFound (path : String) : PyExc
  | otherExc (msg : String) : PyExc
deriving DecidableEq, Repr

/-- The message `str(e)` printed for an exception. -/
def excMessage : PyExc → String
  | .fileNotFound p => "[Errno 2] No such file or directory: " ++ p
  | .otherExc m => m

/-- The directory handed to `load_and_prepare_data`: for each of the five
fixed-name CSVs, either its rows or the exception `pd.read_csv` raises. -/
structure CsvDir where
  ordersFile : Except PyExc (List OrderRaw)
  reviewsFile : Except PyExc (List ReviewRow)
  itemsFile : Except PyExc (List ItemRow)
  productsFile : Except PyExc (List ProductRow)
  customersFile : Except PyExc (List CustomerRow)

/-- The body of the `try` block: the five sequential `pd.read_csv` calls;
the first raising read aborts the block with its exception. -/
def readAll (c : CsvDir) : Except PyExc Dataset := do
  let o ← c.ordersFile
  let r ← c.reviewsFile
  let i ← c.itemsFile
  let p ← c.productsFile
  let cu ← c.customersFile
  pure ⟨o, r, i, p, cu⟩

/-- What `load_and_prepare_data` gives its caller when it returns: `None`
(modelled with the message it printed) or the final table. -/
inductive PipelineResult where
  | noData (printed : String) : PipelineResult
  | table (rows : List FinalRow) : PipelineResult
deriving DecidableEq, Repr

/-- The whole of `load_and_prepare_data`: the `try/except FileNotFoundError`
around the five reads (a caught error prints a message naming the path and
returns `None`; any other exception propagates), then the pure pipeline. -/
def load_and_prepare_data (c : CsvDir) : Except PyExc PipelineResult :=
  match readAll c with
  | .error (.fileNotFound p) =>
      .ok (.noData ("Error loading data files: " ++ excMessage (.fileNotFound p)))
  | .error e => .error e
  | .ok d => .ok (.table (finalTable d))



/-- The rows of `master_df` contributed by one orders row: its matching
reviews, each paired with the order's matching items, their categorized
products, and the order's matching customers (the inner merges, grouped
by originating order). -/
def orderGroup (d : Dataset) (o : OrderFeat) : List MRow :=
  (d.reviews.filter fun r => r.order_id == o.order_id).flatMap fun r =>
    (d.items.filter fun i => i.order_id == o.order_id).flatMap fun i =>
      ((cleanProducts d.products).filter fun p => p.product_id == i.product_id).flatMap fun p =>
        (d.customers.filter fun c => c.customer_id == o.customer_id).map fun c =>
          ((((o, r), i), p), c)

/-- Whether a pipeline outcome is the caught-error "no data" result
(`None` in the source, after the printed message). -/
def isNoData : Except PyExc PipelineResult → Bool
  | .ok (.noData _) => true
  | _ => false

/-- A delivered order: purchased 2018-03-02, estimated 2018-05-10,
delivered 2018-05-12 (two days late). -/
def sampleOrder : OrderRaw :=
  { order_id := "o1", customer_id := "c1",
    order_purchase_timestamp := .valid 1520000000,
    order_approved_at := .valid 1520000100,
    order_delivered_carrier_date := .valid 1520100000,
    order_delivered_customer_date := .valid 1526083200,
    order_estimated_delivery_date := .valid 1525910400 }

/-- A well-behaved dataset: one order, one review, two items (prices
10.00 and 15.00, freights 2.00 and 3.00, in centavos), both products
categorized, one customer with a state. -/
def sampleDs : Dataset :=
  { orders := [sampleOrder],
    reviews := [⟨"r1", "o1", 4⟩],
    items := [⟨"o1", 1, "p1", 1000, 200⟩, ⟨"o1", 2, "p2", 1500, 300⟩],
    products := [⟨"p1", some "toys"⟩, ⟨"p2", some "books"⟩],
    customers := [⟨"c1", some "SP"⟩] }

/-- The single Prepared Order Record `sampleDs` produces. -/
def sampleOut : FinalRow :=
  { order_id := "o1", order_purchase_timestamp := some 1520000000,
    reviewScore := 4, deliveryTimeliness := some (-2), deliveryStatus := "Late",
    price := 2500, freight_value := 500,
    product_category_name := some "toys", customer_state := some "SP" }

/-- Like `sampleDs` but the order has two review rows. -/
def twoReviewsDs : Dataset :=
  { sampleDs with reviews := [⟨"r1", "o1", 4⟩, ⟨"r2", "o1", 5⟩] }

/-- An order delivered 12 hours after its estimated date (estimate
2018-05-10 00:00, delivery 2018-05-10 12:00). -/
def halfDayDs : Dataset :=
  { sampleDs with orders := [{ sampleOrder with
      order_delivered_customer_date := .valid 1525953600 }] }

/-- Like `sampleDs` but the customer's state cell is null. -/
def nullStateDs : Dataset :=
  { sampleDs with customers := [⟨"c1", none⟩] }

/-- Like `sampleDs` but the order has no review row at all. -/
def noReviewDs : Dataset :=
  { sampleDs with reviews := [] }

/-- A directory where all five reads succeed, yielding `sampleDs`. -/
def goodCsv : CsvDir :=
  { ordersFile := .ok sampleDs.orders, reviewsFile := .ok sampleDs.reviews,
    itemsFile := .ok sampleDs.items, productsFile := .ok sampleDs.products,
    customersFile := .ok sampleDs.customers }

/-- A directory whose orders CSV is absent: reading it raises
`FileNotFoundError`. -/
def missingCsv : CsvDir :=
  { goodCsv with ordersFile := .error (.fileNotFound "olist data/olist_orders_dataset.csv") }

/-- A directory whose orders CSV exists but is unreadable: reading it
raises `PermissionError`, which is not a `FileNotFoundError`. -/
def unreadableCsv : CsvDir :=
  { goodCsv with ordersFile := .error (.otherExc
      "PermissionError: [Errno 13] Permission denied: 'olist data/olist_orders_dataset.csv'") }


/-! ### The executable string comparison agrees with the standard order -/

theorem charListLe_iff : ∀ (as bs : List Char),
    charListLe as bs = true ↔ ¬ List.Lex (· < ·) bs as
  | [], bs => by
      constructor
      · intro _ h; cases h
      · intro _; rfl
  | a :: as, [] => by
      constructor
      · intro h; simp [charListLe] at h
      · intro h; exact absurd (List.Lex.nil) h
  | a :: as, b :: bs => by
      rcases lt_trichotomy a b with hab | hab | hab
      · rw [show charListLe (a :: as) (b :: bs) = true from by simp [charListLe, hab]]
        simp only [true_iff]
        intro h
        cases h with
        | cons h => exact lt_irrefl a hab
        | rel h => exact lt_asymm hab h
      · subst hab
        rw [show charListLe (a :: as) (a :: bs) = charListLe as bs from by
          simp [charListLe]]
        rw [charListLe_iff as bs, List.Lex.cons_iff]
      · rw [show charListLe (a :: as) (b :: bs) = false from by
          simp [charListLe, hab, lt_asymm hab, (ne_of_gt hab)]]
        simp only [Bool.false_eq_true, false_iff, not_not]
        exact List.Lex.rel hab

theorem strLeB_iff (a b : String) : strLeB a b = true ↔ a ≤ b := by
  rw [String.le_iff_toList_le]
  have h : ¬ (b.toList < a.toList) ↔ a.toList ≤ b.toList := not_lt
  exact (charListLe_iff a.data b.data).trans h

theorem le_of_strLeB_false {a b : String} (h : strLeB a b = false) : b ≤ a := by
  have := (strLeB_iff a b).not
  rw [h] at this
  exact le_of_not_le (this.1 (by simp))

/-! ### The key sort is a permutation and sorts ascending -/

theorem insertKey_perm (x : String) : ∀ (l : List String), List.Perm (insertKey x l) (x :: l)
  | [] => List.Perm.refl _
  | y :: ys => by
      rw [insertKey]
      by_cases h : strLeB x y
      · rw [if_pos h]
      · rw [if_neg h]
        exact ((insertKey_perm x ys).cons y).trans (List.Perm.swap x y ys)

theorem sortKeys_perm : ∀ (l : List String), List.Perm (sortKeys l) l
  | [] => List.Perm.refl _
  | x :: xs => (insertKey_perm x (sortKeys xs)).trans ((sortKeys_perm xs).cons x)

theorem insertKey_sorted (x : String) : ∀ (l : List String),
    l.Pairwise (· ≤ ·) → (insertKey x l).Pairwise (· ≤ ·)
  | [], _ => List.Pairwise.cons (by intro y hy; cases hy) List.Pairwise.nil
  | y :: ys, h => by
      rw [insertKey]
      rcases List.pairwise_cons.1 h with ⟨hy, hys⟩
      by_cases hxy : strLeB x y
      · rw [if_pos hxy]
        refine List.pairwise_cons.2 ⟨?_, h⟩
        intro z hz
        rcases List.mem_cons.1 hz with hz | hz
        · exact hz ▸ (strLeB_iff x y).1 hxy
        · exact le_trans ((strLeB_iff x y).1 hxy) (hy z hz)
      · rw [if_neg hxy]
        refine List.pairwise_cons.2 ⟨?_, insertKey_sorted x ys hys⟩
        intro z hz
        rcases List.mem_cons.1 ((insertKey_perm x ys).mem_iff.1 hz) with hz | hz
        · exact hz ▸ le_of_strLeB_false (Bool.not_eq_true _ ▸ hxy)
        · exact hy z hz

theorem sortKeys_sorted : ∀ (l : List String), (sortKeys l).Pairwise (· ≤ ·)
  | [] => List.Pairwise.nil
  | x :: xs => insertKey_sorted x (sortKeys xs) (sortKeys_sorted xs)


/-! ### Sums over merged rows -/

theorem sum_map_flatMap {α β : Type} (l : List α) (f : α → List β) (g : β → Int) :
    ((l.flatMap f).map g).sum = (l.map fun a => ((f a).map g).sum).sum := by
  induction l with
  | nil => rfl
  | cons a l ih => simp [List.flatMap_cons, ih]

theorem sum_map_const {α : Type} (l : List α) (c : Int) :
    (l.map fun _ => c).sum = (l.length : Int) * c := by
  induction l with
  | nil => simp
  | cons a l ih =>
      simp only [List.map_cons, List.sum_cons, ih, List.length_cons]
      push_cast
      ring

/-! ### Decomposing the merged table by originating order -/

theorem masterRows_eq_flatMap (d : Dataset) :
    masterRows d = (featOrders d.orders).flatMap (orderGroup d) := by
  simp only [masterRows, innerMerge, orderGroup, List.flatMap_assoc, List.flatMap_map,
    List.map_flatMap, List.map_map, Function.comp]
  rfl

theorem mem_orderGroup {d : Dataset} {o : OrderFeat} {x : MRow} :
    x ∈ orderGroup d o ↔
      ∃ r ∈ d.reviews, r.order_id = o.order_id ∧
      ∃ i ∈ d.items, i.order_id = o.order_id ∧
      ∃ p ∈ cleanProducts d.products, p.product_id = i.product_id ∧
      ∃ c ∈ d.customers, c.customer_id = o.customer_id ∧ x = ((((o, r), i), p), c) := by
  simp only [orderGroup, List.mem_flatMap, List.mem_map, List.mem_filter, beq_iff_eq]
  constructor
  · rintro ⟨r, ⟨hr, hr2⟩, i, ⟨hi, hi2⟩, p, ⟨hp, hp2⟩, c, ⟨hc, hc2⟩, hx⟩
    exact ⟨r, hr, hr2, i, hi, hi2, p, hp, hp2, c, hc, hc2, hx.symm⟩
  · rintro ⟨r, hr, hr2, i, hi, hi2, p, hp, hp2, c, hc, hc2, hx⟩
    exact ⟨r, ⟨hr, hr2⟩, i, ⟨hi, hi2⟩, p, ⟨hp, hp2⟩, c, ⟨hc, hc2⟩, hx.symm⟩

theorem orderGroup_orderid {d : Dataset} {o : OrderFeat} {x : MRow}
    (hx : x ∈ orderGroup d o) : MRow.order_id x = o.order_id := by
  rcases mem_orderGroup.1 hx with ⟨r, _, _, i, _, _, p, _, _, c, _, _, hx⟩
  subst hx; rfl

theorem orderGroup_filter (d : Dataset) (o : OrderFeat) (k : String) :
    (orderGroup d o).filter (fun x => MRow.order_id x == k) =
      if o.order_id == k then orderGroup d o else [] := by
  by_cases h : o.order_id == k
  · rw [if_pos h, List.filter_eq_self]
    intro x hx
    rw [beq_iff_eq] at h ⊢
    rw [orderGroup_orderid hx, h]
  · rw [if_neg h, List.filter_eq_nil_iff]
    intro x hx hk
    rw [beq_iff_eq] at hk h
    exact h ((orderGroup_orderid hx).symm.trans hk)

theorem filter_masterRows (d : Dataset) (k : String) :
    (masterRows d).filter (fun x => MRow.order_id x == k) =
      ((featOrders d.orders).filter fun o => o.order_id == k).flatMap (orderGroup d) := by
  rw [masterRows_eq_flatMap, List.filter_flatMap]
  induction featOrders d.orders with
  | nil => rfl
  | cons o os ih =>
      rw [List.flatMap_cons, List.filter_cons, orderGroup_filter, ih]
      by_cases h : o.order_id == k
      · rw [if_pos h, if_pos h, List.flatMap_cons]
      · rw [if_neg h, if_neg h, List.nil_append]

theorem mem_masterRows {d : Dataset} {x : MRow} :
    x ∈ masterRows d ↔ ∃ o ∈ featOrders d.orders, x ∈ orderGroup d o := by
  rw [masterRows_eq_flatMap, List.mem_flatMap]


/-! ### Structure of the aggregated table -/

theorem aggGroup_inv {k : String} {g : List MRow} {fr : FinalRow}
    (h : aggGroup k g = some fr) :
    ∃ r rs, g = r :: rs ∧
      fr = { order_id := k,
             order_purchase_timestamp := r.1.1.1.1.order_purchase_timestamp,
             reviewScore := r.1.1.1.2.review_score,
             deliveryTimeliness := r.1.1.1.1.deliveryTimeliness,
             deliveryStatus := r.1.1.1.1.deliveryStatus,
             price := ((r :: rs).map MRow.price).sum,
             freight_value := ((r :: rs).map MRow.freight_value).sum,
             product_category_name := r.1.2.product_category_name,
             customer_state := r.2.customer_state } := by
  cases g with
  | nil => simp [aggGroup] at h
  | cons r rs => exact ⟨r, rs, rfl, (Option.some_inj.1 h).symm⟩

theorem mem_finalTable {d : Dataset} {fr : FinalRow} (h : fr ∈ finalTable d) :
    ∃ r rs, (masterRows d).filter (fun x => MRow.order_id x == fr.order_id) = r :: rs ∧
      aggGroup fr.order_id (r :: rs) = some fr := by
  simp only [finalTable, List.mem_filterMap] at h
  rcases h with ⟨k, hk, hagg⟩
  rcases aggGroup_inv hagg with ⟨r, rs, hg, hfr⟩
  have hid : fr.order_id = k := by rw [hfr]
  subst hid
  rw [hg] at hagg
  exact ⟨r, rs, hg, hagg⟩

theorem head_mem_of_filter_cons {α : Type} {l : List α} {p : α → Bool} {r : α} {rs : List α}
    (h : l.filter p = r :: rs) : r ∈ l ∧ p r = true := by
  have hm : r ∈ l.filter p := h ▸ List.mem_cons_self r rs
  exact ⟨(List.mem_filter.1 hm).1, (List.mem_filter.1 hm).2⟩

/-! ### The cleaned, feature-derived orders -/

theorem mem_featOrders {os : List OrderRaw} {o : OrderFeat} :
    o ∈ featOrders os ↔ ∃ op ∈ cleanOrders os, deriveOrder op = o := by
  simp [featOrders]

theorem mem_cleanOrders_isSome {os : List OrderRaw} {op : OrderParsed}
    (h : op ∈ cleanOrders os) :
    op.order_delivered_customer_date.isSome ∧ op.order_estimated_delivery_date.isSome := by
  have h2 := (List.mem_filter.1 h).2
  simpa using h2

theorem featOrder_fields {os : List OrderRaw} {o : OrderFeat} (h : o ∈ featOrders os) :
    ∃ t : Int, o.deliveryTimeliness = some t ∧
      o.deliveryStatus = (if t < 0 then "Late" else "On-Time/Early") := by
  rcases mem_featOrders.1 h with ⟨op, hop, rfl⟩
  rcases mem_cleanOrders_isSome hop with ⟨hd, he⟩
  rcases Option.isSome_iff_exists.1 hd with ⟨dl, hdl⟩
  rcases Option.isSome_iff_exists.1 he with ⟨e, hee⟩
  refine ⟨timedeltaDays (e - dl), ?_, ?_⟩
  · simp [deriveOrder, deliveryDiffDays, hdl, hee]
  · simp [deriveOrder, deliveryDiffDays, lateLabel, hdl, hee]

/-! ### The output's key column -/

theorem filterMap_orderid_sublist (f : String → List MRow) :
    ∀ (keys : List String),
      ((keys.filterMap fun k => aggGroup k (f k)).map FinalRow.order_id).Sublist keys
  | [] => List.Sublist.refl _
  | k :: ks => by
      rw [List.filterMap_cons]
      cases h : aggGroup k (f k) with
      | none => exact (filterMap_orderid_sublist f ks).cons k
      | some fr =>
          rcases aggGroup_inv h with ⟨r, rs, hg, hfr⟩
          rw [List.map_cons]
          have hid : fr.order_id = k := by rw [hfr]
          rw [hid]
          exact (filterMap_orderid_sublist f ks).cons₂ k

theorem finalTable_ids_sublist (d : Dataset) :
    ((finalTable d).map FinalRow.order_id).Sublist
      (sortKeys ((masterRows d).map MRow.order_id).dedup) := by
  simp only [finalTable]
  exact filterMap_orderid_sublist _ _

theorem finalTable_ids_nodup (d : Dataset) : ((finalTable d).map FinalRow.order_id).Nodup :=
  (finalTable_ids_sublist d).nodup
    ((sortKeys_perm _).nodup_iff.2 (List.nodup_dedup _))

theorem finalTable_ids_sorted (d : Dataset) :
    ((finalTable d).map FinalRow.order_id).Pairwise (· ≤ ·) :=
  List.Pairwise.sublist (finalTable_ids_sublist d) (sortKeys_sorted _)


/-! ### Group sums: each item is counted once per matching review row -/

theorem sum_map_flatMap_pointwise {α β : Type} (l : List α) (f : α → List β)
    (g : β → Int) (v : α → Int) (h : ∀ a ∈ l, ((f a).map g).sum = v a) :
    ((l.flatMap f).map g).sum = (l.map v).sum := by
  induction l with
  | nil => simp
  | cons a t ih =>
      simp [List.flatMap_cons, h a (List.mem_cons_self a t),
        ih (fun x hx => h x (List.mem_cons_of_mem a hx))]

theorem sum_orderGroup (d : Dataset) (o : OrderFeat) (f : ItemRow → Int)
    (hc : (d.customers.filter fun c => c.customer_id == o.customer_id).length = 1)
    (hp : ∀ i ∈ d.items, i.order_id = o.order_id →
      ((cleanProducts d.products).filter fun p => p.product_id == i.product_id).length = 1) :
    ((orderGroup d o).map fun x => f x.1.1.2).sum =
      ((d.reviews.filter fun r => r.order_id == o.order_id).length : Int) *
        ((d.items.filter fun i => i.order_id == o.order_id).map f).sum := by
  rw [orderGroup]
  refine Eq.trans (sum_map_flatMap_pointwise _ _ _
    (fun _ => ((d.items.filter fun i => i.order_id == o.order_id).map f).sum) ?_) ?_
  · intro r _
    refine Eq.trans (sum_map_flatMap_pointwise _ _ _ f ?_) rfl
    intro i hi
    have hkey : i.order_id = o.order_id := by
      have h2 := (List.mem_filter.1 hi).2
      rwa [beq_iff_eq] at h2
    refine Eq.trans (sum_map_flatMap_pointwise _ _ _ (fun _ => f i) ?_) ?_
    · intro p _
      rw [List.map_map]
      show ((d.customers.filter fun c => c.customer_id == o.customer_id).map
        fun _ => f i).sum = f i
      rw [sum_map_const, hc, Nat.cast_one, one_mul]
    · rw [sum_map_const, hp i (List.mem_filter.1 hi).1 hkey, Nat.cast_one, one_mul]
  · rw [sum_map_const]

/-- C1 (amended): in a Prepared Order Record, `price` and `freight_value`
are the item sums counted once per matching review row: when the order id
`k` matches exactly one cleaned orders row, exactly one customer row, and
each of its items exactly one categorized product row, the record's
`price` is (number of matching review rows) x (sum of the item prices),
and likewise for `freight_value`. With exactly one review row this is the
plain item sum; with several review rows the items are counted several
times. -/
theorem price_sums_items_once_per_review (d : Dataset) (k : String) (o : OrderFeat)
    (ho : (featOrders d.orders).filter (fun x => x.order_id == k) = [o])
    (hc : (d.customers.filter fun c => c.customer_id == o.customer_id).length = 1)
    (hp : ∀ i ∈ d.items, i.order_id = k →
      ((cleanProducts d.products).filter fun p => p.product_id == i.product_id).length = 1) :
    ∀ fr ∈ finalTable d, fr.order_id = k →
      fr.price = ((d.reviews.filter fun r => r.order_id == k).length : Int) *
        ((d.items.filter fun i => i.order_id == k).map ItemRow.price).sum ∧
      fr.freight_value = ((d.reviews.filter fun r => r.order_id == k).length : Int) *
        ((d.items.filter fun i => i.order_id == k).map ItemRow.freight_value).sum := by
  intro fr hfr hk
  subst hk
  have hoid : o.order_id = fr.order_id := by
    have hmem : o ∈ (featOrders d.orders).filter (fun x => x.order_id == fr.order_id) :=
      ho ▸ List.mem_singleton.2 rfl
    exact beq_iff_eq.1 (List.mem_filter.1 hmem).2
  rcases mem_finalTable hfr with ⟨r, rs, hg, hagg⟩
  rcases aggGroup_inv hagg with ⟨r2, rs2, hcons, hfr2⟩
  injection hcons with e1 e2
  subst e1
  subst e2
  have hgroup : (masterRows d).filter (fun x => MRow.order_id x == fr.order_id) =
      orderGroup d o := by
    rw [filter_masterRows, ho]
    simp
  rw [hgroup] at hg
  constructor
  · rw [hfr2]
    show ((r :: rs).map MRow.price).sum = _
    rw [← hg]
    have hs := sum_orderGroup d o ItemRow.price hc
      (fun i hi hik => hp i hi (hik.trans hoid))
    rw [hoid] at hs
    exact hs
  · rw [hfr2]
    show ((r :: rs).map MRow.freight_value).sum = _
    rw [← hg]
    have hs := sum_orderGroup d o ItemRow.freight_value hc
      (fun i hi hik => hp i hi (hik.trans hoid))
    rw [hoid] at hs
    exact hs

/-- Witness for C1 at `sampleDs` (one review row): the hypotheses hold and
the record's price is 1 x (1000 + 1500) = 2500 centavos. -/
theorem price_sums_items_once_per_review_witness :
    (featOrders sampleDs.orders).filter
        (fun x => x.order_id == "o1") = [deriveOrder (parseDates sampleOrder)] ∧
    sampleOut ∈ finalTable sampleDs ∧
    sampleOut.price = ((sampleDs.reviews.filter fun r => r.order_id == "o1").length : Int) *
      ((sampleDs.items.filter fun i => i.order_id == "o1").map ItemRow.price).sum :=
  ⟨by decide, by decide,
    (price_sums_items_once_per_review sampleDs "o1" (deriveOrder (parseDates sampleOrder))
      (by decide) (by decide) (by decide) sampleOut (by decide) (by decide)).1⟩

/-- Counterexample to C1 as stated: with two review rows for the order,
the aggregated `price` is 5000 centavos, not the item sum 2500 (each item
is merged once per review row before the group sum). -/
theorem price_double_counted_with_two_reviews :
    (finalTable twoReviewsDs).map FinalRow.price = [5000] ∧
    (finalTable twoReviewsDs).map FinalRow.freight_value = [1000] ∧
    ((twoReviewsDs.items.filter fun i => i.order_id == "o1").map ItemRow.price).sum = 2500 ∧
    ((twoReviewsDs.items.filter fun i => i.order_id == "o1").map
      ItemRow.freight_value).sum = 500 ∧
    (5000 : Int) ≠ 2500 ∧ (1000 : Int) ≠ 500 := by decide


/-- C2 (amended): for every order surviving the Cleaner, Delivery
Timeliness is the timestamp difference estimated minus delivered reduced
to whole days by FLOOR division (toward minus infinity), not by
truncation toward zero: a positive sub-day difference gives 0, but a
negative sub-day difference (delivered up to a day after the estimate)
gives -1; estimated 2018-05-10 vs delivered 2018-05-12 still gives -2. -/
theorem delivery_timeliness_floor_days (os : List OrderRaw) (o : OrderFeat)
    (h : o ∈ featOrders os) (e dl : Int)
    (hest : o.order_estimated_delivery_date = some e)
    (hdel : o.order_delivered_customer_date = some dl) :
    o.deliveryTimeliness = some (Int.fdiv (e - dl) 86400) ∧
    (0 ≤ e - dl → e - dl < 86400 → o.deliveryTimeliness = some 0) ∧
    (-86400 < e - dl → e - dl < 0 → o.deliveryTimeliness = some (-1)) ∧
    (e - dl = -172800 → o.deliveryTimeliness = some (-2)) := by
  rcases mem_featOrders.1 h with ⟨op, _, rfl⟩
  have hest2 : op.order_estimated_delivery_date = some e := hest
  have hdel2 : op.order_delivered_customer_date = some dl := hdel
  have h1 : (deriveOrder op).deliveryTimeliness = some (timedeltaDays (e - dl)) := by
    simp [deriveOrder, deliveryDiffDays, hest2, hdel2]
  refine ⟨h1, ?_, ?_, ?_⟩
  · intro ha hb
    rw [h1]
    have hv : timedeltaDays (e - dl) = 0 := by
      rw [timedeltaDays, Int.fdiv_eq_ediv _ (by norm_num)]
      omega
    rw [hv]
  · intro ha hb
    rw [h1]
    have hv : timedeltaDays (e - dl) = -1 := by
      rw [timedeltaDays, Int.fdiv_eq_ediv _ (by norm_num)]
      omega
    rw [hv]
  · intro ha
    rw [h1]
    have hv : timedeltaDays (e - dl) = -2 := by
      rw [timedeltaDays, ha]
      decide
    rw [hv]

/-- Witness for C2 at `sampleDs`: the single surviving order has
estimated 1525910400 (2018-05-10) and delivered 1526083200 (2018-05-12),
and its Delivery Timeliness is the floor of their difference in days. -/
theorem delivery_timeliness_floor_days_witness :
    deriveOrder (parseDates sampleOrder) ∈ featOrders sampleDs.orders ∧
    (deriveOrder (parseDates sampleOrder)).deliveryTimeliness =
      some (Int.fdiv (1525910400 - 1526083200) 86400) :=
  ⟨by decide,
    (delivery_timeliness_floor_days sampleDs.orders (deriveOrder (parseDates sampleOrder))
      (by decide) 1525910400 1526083200 (by decide) (by decide)).1⟩

/-- Counterexample to C2 as stated: an order delivered 12 hours after the
estimated date survives the Cleaner and gets Delivery Timeliness -1 (and
Delivery Status "Late"), not the 0 days that truncation toward zero would
give. -/
theorem subday_late_delivery_gives_minus_one :
    (featOrders halfDayDs.orders).map OrderFeat.deliveryTimeliness = [some (-1)] ∧
    (featOrders halfDayDs.orders).map OrderFeat.deliveryStatus = ["Late"] ∧
    (some (-1) : Option Int) ≠ some 0 := by decide

/-- C3 (amended): if reading one of the five CSV files raises
FileNotFoundError, `load_and_prepare_data` prints a message naming the
missing path and hands the caller the no-data result (`None`), producing
no table at all; but an unreadable file that raises any other exception
propagates that exception instead of the no-data result. -/
theorem missing_file_yields_no_data (c : CsvDir) (p : String)
    (h : readAll c = .error (.fileNotFound p)) :
    load_and_prepare_data c =
      .ok (.noData ("Error loading data files: " ++ excMessage (.fileNotFound p))) := by
  unfold load_and_prepare_data
  rw [h]

/-- Witness for C3: with the orders CSV missing, the pipeline returns the
no-data result carrying the printed message that names the path. -/
theorem missing_file_yields_no_data_witness :
    readAll missingCsv = .error (.fileNotFound "olist data/olist_orders_dataset.csv") ∧
    load_and_prepare_data missingCsv = .ok (.noData ("Error loading data files: " ++
      excMessage (.fileNotFound "olist data/olist_orders_dataset.csv"))) :=
  ⟨by rfl, missing_file_yields_no_data missingCsv "olist data/olist_orders_dataset.csv" (by rfl)⟩

/-- Counterexample to C3 as stated: an orders CSV that exists but is
unreadable raises PermissionError, which the `except FileNotFoundError`
does not catch: the exception propagates to the caller and the outcome is
not the "no data" condition the claim promises for unreadable files. -/
theorem unreadable_file_propagates_exception :
    load_and_prepare_data unreadableCsv = .error (.otherExc
      "PermissionError: [Errno 13] Permission denied: 'olist data/olist_orders_dataset.csv'") ∧
    isNoData (load_and_prepare_data unreadableCsv) = false := by
  exact ⟨rfl, rfl⟩


/-- C4: every Prepared Order Record has a (non-null) Delivery Timeliness
value t with Delivery Status "Late" iff t < 0; in particular t = 0 or any
t >= 0 gives "On-Time/Early", so the boundary is inclusive on the early
side and no record with nonnegative timeliness is "Late". -/
theorem late_iff_timeliness_negative (d : Dataset) (fr : FinalRow)
    (h : fr ∈ finalTable d) :
    ∃ t : Int, fr.deliveryTimeliness = some t ∧
      (fr.deliveryStatus = "Late" ↔ t < 0) ∧
      (0 ≤ t → fr.deliveryStatus = "On-Time/Early") := by
  rcases mem_finalTable h with ⟨r, rs, hg, hagg⟩
  rcases aggGroup_inv hagg with ⟨r2, rs2, hcons, hfr⟩
  injection hcons with e1 e2
  subst e1
  subst e2
  have hr := (head_mem_of_filter_cons hg).1
  rcases mem_masterRows.1 hr with ⟨o, ho, hgo⟩
  rcases mem_orderGroup.1 hgo with ⟨rv, _, _, i, _, _, p, _, _, c, _, _, hx⟩
  subst hx
  rcases featOrder_fields ho with ⟨t, ht, hs⟩
  refine ⟨t, ?_, ?_, ?_⟩
  · rw [hfr]
    exact ht
  · rw [hfr]
    show o.deliveryStatus = "Late" ↔ t < 0
    rw [hs]
    by_cases ht0 : t < 0
    · simp [ht0]
    · simp only [if_neg ht0]
      constructor
      · intro hbad
        exact absurd hbad (by decide)
      · intro hbad
        exact absurd hbad ht0
  · intro h0
    rw [hfr]
    show o.deliveryStatus = "On-Time/Early"
    rw [hs, if_neg (not_lt.2 h0)]

/-- Witness for C4 at `sampleDs`: its record is in the output and the
conclusion holds there (timeliness -2, status "Late"). -/
theorem late_iff_timeliness_negative_witness :
    sampleOut ∈ finalTable sampleDs ∧
    (∃ t : Int, sampleOut.deliveryTimeliness = some t ∧
      (sampleOut.deliveryStatus = "Late" ↔ t < 0) ∧
      (0 ≤ t → sampleOut.deliveryStatus = "On-Time/Early")) :=
  ⟨by decide, late_iff_timeliness_negative sampleDs sampleOut (by decide)⟩

/-- C5: the four merges are inner joins, so an order id with no matching
review row, or no item row, or whose matching items have only
uncategorized products, or whose surviving orders rows match no customer
row, appears nowhere in the final table. -/
theorem inner_joins_drop_unmatched_orders (d : Dataset) (k : String)
    (h : (∀ r ∈ d.reviews, r.order_id ≠ k) ∨
         (∀ i ∈ d.items, i.order_id ≠ k) ∨
         (∀ i ∈ d.items, i.order_id = k →
            ∀ p ∈ d.products, p.product_id = i.product_id →
              p.product_category_name = none) ∨
         (∀ o ∈ featOrders d.orders, o.order_id = k →
            ∀ c ∈ d.customers, c.customer_id ≠ o.customer_id)) :
    ∀ fr ∈ finalTable d, fr.order_id ≠ k := by
  intro fr hfr hk
  rcases mem_finalTable hfr with ⟨r, rs, hg, _⟩
  have hr := (head_mem_of_filter_cons hg).1
  have hrid : MRow.order_id r = k := by
    have h2 := (head_mem_of_filter_cons hg).2
    rw [beq_iff_eq] at h2
    exact h2.trans hk
  rcases mem_masterRows.1 hr with ⟨o, ho, hgo⟩
  rcases mem_orderGroup.1 hgo with ⟨rv, hrv, hrvid, i, hi, hiid, p, hp, hpid, c, hc, hcid, hx⟩
  have hoid : o.order_id = k := by
    rw [← orderGroup_orderid hgo, hrid]
  rcases h with h | h | h | h
  · exact h rv hrv (hrvid.trans hoid)
  · exact h i hi (hiid.trans hoid)
  · have hp2 := List.mem_filter.1 hp
    have hnone := h i hi (hiid.trans hoid) p hp2.1 hpid
    have hsome := hp2.2
    rw [hnone] at hsome
    exact absurd hsome (by decide)
  · exact h o ho hoid c hc hcid

/-- Witness for C5 at `noReviewDs`: the order has no review row, and no
record with its id reaches the final table. -/
theorem inner_joins_drop_unmatched_orders_witness :
    (∀ r ∈ noReviewDs.reviews, r.order_id ≠ "o1") ∧
    ¬ ∃ fr ∈ finalTable noReviewDs, fr.order_id = "o1" := by
  refine ⟨by decide, ?_⟩
  rintro ⟨fr, hfr, hk⟩
  exact inner_joins_drop_unmatched_orders noReviewDs "o1" (Or.inl (by decide)) fr hfr hk


/-- C6: `order_id` is unique in the final table: the list of output
order ids has no duplicate, so any two distinct output rows carry
different order ids (multi-item and multi-review orders are collapsed to
one row by the grouping on order_id). -/
theorem final_order_ids_unique (d : Dataset) :
    ((finalTable d).map FinalRow.order_id).Nodup :=
  finalTable_ids_nodup d

/-- C7 (amended): no Prepared Order Record has a null
`product_category_name` (uncategorized products are dropped before the
merge); `customer_state` is non-null provided every input customer row
has a non-null state, but a null state in the customers CSV passes
through to the output unchanged. -/
theorem category_never_null_state_conditional (d : Dataset) (fr : FinalRow)
    (h : fr ∈ finalTable d) :
    fr.product_category_name.isSome = true ∧
    ((∀ c ∈ d.customers, c.customer_state.isSome = true) →
      fr.customer_state.isSome = true) := by
  rcases mem_finalTable h with ⟨r, rs, hg, hagg⟩
  rcases aggGroup_inv hagg with ⟨r2, rs2, hcons, hfr⟩
  injection hcons with e1 e2
  subst e1
  subst e2
  have hr := (head_mem_of_filter_cons hg).1
  rcases mem_masterRows.1 hr with ⟨o, ho, hgo⟩
  rcases mem_orderGroup.1 hgo with ⟨rv, _, _, i, _, _, p, hp, _, c, hc, _, hx⟩
  subst hx
  constructor
  · rw [hfr]
    show p.product_category_name.isSome = true
    exact (List.mem_filter.1 hp).2
  · intro hall
    rw [hfr]
    show c.customer_state.isSome = true
    exact hall c hc

/-- Witness for C7 at `sampleDs`: its record is in the output, its
category is non-null, and with every sample customer state non-null its
state is non-null too. -/
theorem category_never_null_state_conditional_witness :
    sampleOut ∈ finalTable sampleDs ∧
    sampleOut.product_category_name.isSome = true ∧
    sampleOut.customer_state.isSome = true := by
  have h := category_never_null_state_conditional sampleDs sampleOut (by decide)
  exact ⟨by decide, h.1, h.2 (by decide)⟩

/-- Counterexample to C7 as stated: a dataset whose only customer row has
a null `customer_state` yields a Prepared Order Record whose
`customer_state` is null - nothing in the pipeline filters those out. -/
theorem null_customer_state_reaches_output :
    (finalTable nullStateDs).map FinalRow.customer_state = [none] ∧
    (finalTable nullStateDs).length = 1 := by decide

/-- C8: every orders row surviving the Cleaner has non-null delivered and
estimated dates (rows with a missing or malformed-and-coerced-to-null
date were dropped), so the Feature Deriver assigns a non-null Delivery
Timeliness and one of the two Delivery Status labels to every surviving
row. -/
theorem cleaner_guarantees_dates_and_derivation (os : List OrderRaw) (op : OrderParsed)
    (h : op ∈ cleanOrders os) :
    (op.order_delivered_customer_date.isSome = true ∧
      op.order_estimated_delivery_date.isSome = true) ∧
    (deriveOrder op).deliveryTimeliness.isSome = true ∧
    ((deriveOrder op).deliveryStatus = "Late" ∨
      (deriveOrder op).deliveryStatus = "On-Time/Early") := by
  rcases mem_cleanOrders_isSome h with ⟨hd, he⟩
  rcases Option.isSome_iff_exists.1 hd with ⟨dl, hdl⟩
  rcases Option.isSome_iff_exists.1 he with ⟨e, hee⟩
  refine ⟨⟨hd, he⟩, ?_, ?_⟩
  · simp [deriveOrder, deliveryDiffDays, hdl, hee]
  · by_cases ht : timedeltaDays (e - dl) < 0
    · left
      simp [deriveOrder, deliveryDiffDays, lateLabel, hdl, hee, ht]
    · right
      simp [deriveOrder, deliveryDiffDays, lateLabel, hdl, hee, ht]

/-- Witness for C8 at `sampleDs`: its parsed orders row survives the
Cleaner and the conclusion holds for it. -/
theorem cleaner_guarantees_dates_and_derivation_witness :
    parseDates sampleOrder ∈ cleanOrders sampleDs.orders ∧
    (deriveOrder (parseDates sampleOrder)).deliveryTimeliness.isSome = true :=
  ⟨by decide,
    (cleaner_guarantees_dates_and_derivation sampleDs.orders
      (parseDates sampleOrder) (by decide)).2.1⟩

/-- C9: the pipeline is a pure function of the five files read: two runs
over identical directory contents return identical results - the same
rows, with the same values, in the same order. -/
theorem pipeline_deterministic (c1 c2 : CsvDir) (h : c1 = c2) :
    load_and_prepare_data c1 = load_and_prepare_data c2 :=
  congrArg load_and_prepare_data h

/-- Witness for C9: two runs over `goodCsv` agree. -/
theorem pipeline_deterministic_witness :
    load_and_prepare_data goodCsv = load_and_prepare_data goodCsv :=
  pipeline_deterministic goodCsv goodCsv rfl

/-- C10: the rows of the final table are sorted in strictly ascending
order of `order_id` (the groupby sorts the distinct grouping keys
ascending by default). -/
theorem final_table_sorted_by_order_id (d : Dataset) :
    ((finalTable d).map FinalRow.order_id).Pairwise (· < ·) := by
  have h := (finalTable_ids_sorted d).and (finalTable_ids_nodup d)
  exact h.imp fun hab => lt_of_le_of_ne hab.1 hab.2

end Olist
